import Mathlib

/-!
# WinTelnetEngine (src/renderer/vt/WinTelnetEngine.cpp)

A shallow embedding of the win-telnet rendering adapter and of the way it
drives the primitives of its base class `VtEngine`.

* Machine types (`HRESULT`, `SHORT`, `COLORREF`, `WORD`, `wchar_t`) are integers or
  naturals; the adapter performs no arithmetic on them, only comparisons and
  forwarding, so no wrap-around is involved.
* The base-class primitives (`_CursorPosition`, `_16ColorUpdateDrawingBrushes`,
  `InvalidateAll`, `_WriteTerminalAscii`, `_Flush`) are not part of this file of
  the repository.  Their outcome is a parameter `prim`: the `HRESULT` of a call
  may depend in an arbitrary way on everything that was invoked before and on the
  call itself.  Every invocation is recorded, with its result, in a log kept in
  the engine state, so that "how many times was a primitive called and with which
  arguments" is a statement about that log.
* The primitives act on the base engine only; `_lastText` is written solely by
  the code of `_MoveCursor`.
-/

namespace WinTelnet

/-! ## Machine types -/

/-- HRESULT is a signed 32-bit status code; only its sign is ever inspected. -/
abbrev HRESULT := Int

/-- The success code `S_OK`. -/
def S_OK : HRESULT := 0

/-- The generic failure code `E_FAIL` (0x80004005 read as a signed value). -/
def E_FAIL : HRESULT := -2147467259

/-- The success code `S_FALSE`, a success different from `S_OK`. -/
def S_FALSE : HRESULT := 1

/-- The test `SUCCEEDED(hr)`, that is `hr >= 0`. -/
def SUCCEEDED (hr : HRESULT) : Bool := decide (0 ≤ hr)

/-- The test `FAILED(hr)`, that is `hr < 0`. -/
def FAILED (hr : HRESULT) : Bool := decide (hr < 0)

/-- A character cell coordinate: `COORD` with its two `SHORT` fields.  The stored
position and every target have this same type, and the fields are only compared
and copied, so the 16-bit range plays no part and is not carried along. -/
structure COORD where
  X : Int
  Y : Int
deriving DecidableEq, Repr

/-- A colour value `COLORREF` (a `DWORD`). -/
abbrev COLORREF := Nat

/-- A 16-bit `WORD`. -/
abbrev WORD := Nat

/-- The flag set `ExtendedAttributes`, a bit field stored in a `BYTE`. -/
abbrev ExtendedAttributes := Nat

/-- A `std::wstring_view`: a run of `wchar_t` code units. -/
abbrev wstring_view := List Nat

/-- The flag test `WI_IsFlagSet(val, flag)` for a single-bit `flag`: the bit is
present in `val`. -/
def WI_IsFlagSet (val flag : Nat) : Bool := (val &&& flag) != 0

/-! ## The base engine and its primitives -/

/-- One invocation of a primitive of the base engine, with its arguments. -/
inductive Call where
  | _16ColorUpdateDrawingBrushes (colorForeground colorBackground : COLORREF)
      (isBold : Bool) (colorTable : List COLORREF)
  | _CursorPosition (coord : COORD)
  | InvalidateAll
  | _WriteTerminalAscii (wstr : wstring_view)
  | _Flush
deriving DecidableEq, Repr

/-- The outcome of the primitives: given what was invoked so far (with the
results) and the call being made, the `HRESULT` the call returns. -/
abbrev Primitives := List (Call × HRESULT) → Call → HRESULT

/-- The part of `VtEngine` the adapter sees: the last cursor position it stored
and the record of the primitive calls issued so far, oldest first. -/
structure VtEngine where
  _lastText : COORD
  log : List (Call × HRESULT)
deriving DecidableEq, Repr

/-- The adapter: the base engine plus the colour table given at construction. -/
structure WinTelnetEngine extends VtEngine where
  _colorTable : List COLORREF
deriving DecidableEq, Repr

/-- Invoke one primitive of the base engine: obtain its result and record the
call.  Nothing else of the adapter state is touched. -/
def WinTelnetEngine.invoke (prim : Primitives) (c : Call) (e : WinTelnetEngine) :
    HRESULT × WinTelnetEngine :=
  let hr := prim e.log c
  (hr, { e with log := e.log ++ [(c, hr)] })

/-- The primitive `VtEngine::_16ColorUpdateDrawingBrushes`. -/
def WinTelnetEngine._16ColorUpdateDrawingBrushes (prim : Primitives)
    (colorForeground colorBackground : COLORREF) (isBold : Bool)
    (colorTable : List COLORREF) (e : WinTelnetEngine) : HRESULT × WinTelnetEngine :=
  e.invoke prim (Call._16ColorUpdateDrawingBrushes colorForeground colorBackground isBold colorTable)

/-- The primitive `VtEngine::_CursorPosition`. -/
def WinTelnetEngine._CursorPosition (prim : Primitives) (coord : COORD)
    (e : WinTelnetEngine) : HRESULT × WinTelnetEngine :=
  e.invoke prim (Call._CursorPosition coord)

/-- The primitive `VtEngine::InvalidateAll`. -/
def WinTelnetEngine.InvalidateAll (prim : Primitives) (e : WinTelnetEngine) :
    HRESULT × WinTelnetEngine :=
  e.invoke prim Call.InvalidateAll

/-- The primitive `VtEngine::_WriteTerminalAscii`. -/
def WinTelnetEngine._WriteTerminalAscii (prim : Primitives) (wstr : wstring_view)
    (e : WinTelnetEngine) : HRESULT × WinTelnetEngine :=
  e.invoke prim (Call._WriteTerminalAscii wstr)

/-- The primitive `VtEngine::_Flush`. -/
def WinTelnetEngine._Flush (prim : Primitives) (e : WinTelnetEngine) :
    HRESULT × WinTelnetEngine :=
  e.invoke prim Call._Flush

/-! ## The adapter's own code -/

/-- The constructor `WinTelnetEngine::WinTelnetEngine`.  It runs the base-class
constructor `VtEngine(hPipe, colorProvider, initialViewport)`, which is not in
this file of the repository and is therefore the parameter `VtEngine_ctor` (it
may fail, a C++ exception, and it decides the initial `_lastText`); then it
stores `colorTable` in `_colorTable`.  The colour table is not handed to the base
constructor and is not inspected. -/
def WinTelnetEngine.ctor {Pipe Provider Viewport : Type}
    (VtEngine_ctor : Pipe → Provider → Viewport → Except HRESULT VtEngine)
    (hPipe : Pipe) (colorProvider : Provider) (initialViewport : Viewport)
    (colorTable : List COLORREF) : Except HRESULT WinTelnetEngine :=
  match VtEngine_ctor hPipe colorProvider initialViewport with
  | .error hr => .error hr
  | .ok vt => .ok { toVtEngine := vt, _colorTable := colorTable }

/-- The method `WinTelnetEngine::UpdateDrawingBrushes`.  The flag constant
`ExtendedAttributes::Bold` is declared in conattrs.hpp, outside this file of the
repository, and is the parameter `Bold`. -/
def WinTelnetEngine.UpdateDrawingBrushes (Bold : ExtendedAttributes) (prim : Primitives)
    (colorForeground colorBackground : COLORREF) (_legacyColorAttribute : WORD)
    (extendedAttrs : ExtendedAttributes) (_isSettingDefaultBrushes : Bool)
    (e : WinTelnetEngine) : HRESULT × WinTelnetEngine :=
  e._16ColorUpdateDrawingBrushes prim colorForeground colorBackground
    (WI_IsFlagSet extendedAttrs Bold) e._colorTable

/-- The method `WinTelnetEngine::_MoveCursor`. -/
def WinTelnetEngine._MoveCursor (prim : Primitives) (coord : COORD)
    (e : WinTelnetEngine) : HRESULT × WinTelnetEngine :=
  let hr : HRESULT := S_OK
  if coord.X ≠ e._lastText.X ∨ coord.Y ≠ e._lastText.Y then
    let r := e._CursorPosition prim coord
    let hr := r.1
    if SUCCEEDED hr then
      (hr, { r.2 with _lastText := coord })
    else
      (hr, r.2)
  else
    (hr, e)

/-- The method `WinTelnetEngine::ScrollFrame`. -/
def WinTelnetEngine.ScrollFrame (e : WinTelnetEngine) : HRESULT × WinTelnetEngine :=
  (S_OK, e)

/-- The method `WinTelnetEngine::InvalidateScroll`; the pointer argument may be
null and is never read. -/
def WinTelnetEngine.InvalidateScroll (prim : Primitives) (_pcoordDelta : Option COORD)
    (e : WinTelnetEngine) : HRESULT × WinTelnetEngine :=
  e.InvalidateAll prim

/-- The method `WinTelnetEngine::WriteTerminalW`; `RETURN_IF_FAILED` returns the
result of its argument at once when it is a failure. -/
def WinTelnetEngine.WriteTerminalW (prim : Primitives) (wstr : wstring_view)
    (e : WinTelnetEngine) : HRESULT × WinTelnetEngine :=
  let r := e._WriteTerminalAscii prim wstr
  if FAILED r.1 then
    r
  else
    r.2._Flush prim

/-! ## Sequences of operations -/

/-- One call made by the dispatcher to the adapter, with its arguments. -/
inductive Op where
  | UpdateDrawingBrushes (colorForeground colorBackground : COLORREF)
      (legacyColorAttribute : WORD) (extendedAttrs : ExtendedAttributes)
      (isSettingDefaultBrushes : Bool)
  | _MoveCursor (coord : COORD)
  | ScrollFrame
  | InvalidateScroll (pcoordDelta : Option COORD)
  | WriteTerminalW (wstr : wstring_view)
deriving DecidableEq, Repr

/-- Run one operation of the adapter. -/
def WinTelnetEngine.step (Bold : ExtendedAttributes) (prim : Primitives) :
    Op → WinTelnetEngine → HRESULT × WinTelnetEngine
  | Op.UpdateDrawingBrushes fg bg legacy ext isDefault, e =>
      e.UpdateDrawingBrushes Bold prim fg bg legacy ext isDefault
  | Op._MoveCursor coord, e => e._MoveCursor prim coord
  | Op.ScrollFrame, e => e.ScrollFrame
  | Op.InvalidateScroll pcoordDelta, e => e.InvalidateScroll prim pcoordDelta
  | Op.WriteTerminalW wstr, e => e.WriteTerminalW prim wstr

/-- Run a sequence of operations one after the other, whatever each returns. -/
def WinTelnetEngine.run (Bold : ExtendedAttributes) (prim : Primitives) :
    List Op → WinTelnetEngine → WinTelnetEngine
  | [], e => e
  | op :: ops, e => WinTelnetEngine.run Bold prim ops (e.step Bold prim op).2

/-- The coordinate of the most recent successful `_CursorPosition` call in a
record of calls (oldest first), or `init` when the record has none. -/
def lastTransmitted (init : COORD) : List (Call × HRESULT) → COORD
  | [] => init
  | (Call._CursorPosition c, hr) :: rest =>
      lastTransmitted (if SUCCEEDED hr then c else init) rest
  | _ :: rest => lastTransmitted init rest

/-- The calls, with their results, that were recorded after the state `before`
and up to the state `after`. -/
def callsSince (before after : WinTelnetEngine) : List (Call × HRESULT) :=
  after.log.drop before.log.length

/-- The number of `_CursorPosition` invocations in a record of calls. -/
def countCursorPosition : List (Call × HRESULT) → Nat
  | [] => 0
  | (Call._CursorPosition _, _) :: rest => countCursorPosition rest + 1
  | _ :: rest => countCursorPosition rest

/-- The number of `_Flush` invocations in a record of calls. -/
def countFlush : List (Call × HRESULT) → Nat
  | [] => 0
  | (Call._Flush, _) :: rest => countFlush rest + 1
  | _ :: rest => countFlush rest

/-! ## Basic facts on `_MoveCursor` -/

/-- Two coordinates differ exactly when they differ in column or in row. -/
theorem COORD.ne_iff (c p : COORD) : (c.X ≠ p.X ∨ c.Y ≠ p.Y) ↔ c ≠ p := by
  cases c; cases p
  simp only [ne_eq, COORD.mk.injEq]
  tauto

/-- When the target is the stored position, `_MoveCursor` does nothing. -/
theorem WinTelnetEngine.MoveCursor_same (prim : Primitives) (c : COORD) (e : WinTelnetEngine)
    (h : c.X = e._lastText.X ∧ c.Y = e._lastText.Y) :
    e._MoveCursor prim c = (S_OK, e) := by
  simp [WinTelnetEngine._MoveCursor, h.1, h.2]

/-- When the target differs from the stored position, `_MoveCursor` invokes
`_CursorPosition` and stores the target only if the result is a success. -/
theorem WinTelnetEngine.MoveCursor_diff (prim : Primitives) (c : COORD) (e : WinTelnetEngine)
    (h : c.X ≠ e._lastText.X ∨ c.Y ≠ e._lastText.Y) :
    e._MoveCursor prim c =
      (prim e.log (Call._CursorPosition c),
        { e with
          _lastText := if SUCCEEDED (prim e.log (Call._CursorPosition c)) then c else e._lastText
          log := e.log ++ [(Call._CursorPosition c, prim e.log (Call._CursorPosition c))] }) := by
  simp only [WinTelnetEngine._MoveCursor, WinTelnetEngine._CursorPosition,
    WinTelnetEngine.invoke, if_pos h]
  split <;> simp_all

/-- A status code is a failure exactly when it is not a success. -/
theorem FAILED_eq_not_SUCCEEDED (hr : HRESULT) : FAILED hr = !SUCCEEDED hr := by
  unfold FAILED SUCCEEDED
  by_cases h : hr < 0
  · have h2 : ¬ (0 ≤ hr) := not_le.mpr h
    simp [h, h2]
  · have h2 : 0 ≤ hr := not_lt.mp h
    simp [h, h2]

/-- The calls recorded since a state, when the record grew by `d`. -/
theorem callsSince_of_log (e e2 : WinTelnetEngine) (d : List (Call × HRESULT))
    (h : e2.log = e.log ++ d) : callsSince e e2 = d := by
  simp [callsSince, h]

/-! ## Claims on `_MoveCursor` -/

/-- C4: for every stored position and every target, if the target equals the
stored position in column and row, `_MoveCursor` returns the success `S_OK`,
invokes no primitive and leaves the state as it was; if the target differs in
column or row, `_MoveCursor` invokes `_CursorPosition` exactly once, with the
target as argument, returns its result, and when that result is a success the
stored position is the target afterwards. -/
theorem C4_MoveCursor_compare (prim : Primitives) (c : COORD) (e : WinTelnetEngine) :
    ((c.X = e._lastText.X ∧ c.Y = e._lastText.Y) →
      e._MoveCursor prim c = (S_OK, e) ∧ SUCCEEDED S_OK = true ∧
      callsSince e (e._MoveCursor prim c).2 = []) ∧
    ((c.X ≠ e._lastText.X ∨ c.Y ≠ e._lastText.Y) →
      (e._MoveCursor prim c).1 = prim e.log (Call._CursorPosition c) ∧
      (e._MoveCursor prim c).2.log =
        e.log ++ [(Call._CursorPosition c, prim e.log (Call._CursorPosition c))] ∧
      countCursorPosition (callsSince e (e._MoveCursor prim c).2) = 1 ∧
      (e._MoveCursor prim c).2._colorTable = e._colorTable ∧
      (SUCCEEDED (prim e.log (Call._CursorPosition c)) = true →
        (e._MoveCursor prim c).2._lastText = c)) := by
  constructor
  · intro h
    rw [WinTelnetEngine.MoveCursor_same prim c e h]
    simp [callsSince, SUCCEEDED, S_OK]
  · intro h
    rw [WinTelnetEngine.MoveCursor_diff prim c e h]
    refine ⟨rfl, rfl, ?_, rfl, ?_⟩
    · simp [callsSince, countCursorPosition]
    · intro hs
      simp [hs]

/-- C4 at concrete inputs: a move to the stored position (3, 4), and a move from
(3, 4) to (5, 4) whose emission succeeds. -/
theorem C4_MoveCursor_compare_witness :
    ((⟨⟨⟨3, 4⟩, []⟩, []⟩ : WinTelnetEngine)._MoveCursor (fun _ _ => S_OK) ⟨3, 4⟩
        = (S_OK, ⟨⟨⟨3, 4⟩, []⟩, []⟩)) ∧
    ((⟨⟨⟨3, 4⟩, []⟩, []⟩ : WinTelnetEngine)._MoveCursor (fun _ _ => S_OK) ⟨5, 4⟩).2._lastText
        = ⟨5, 4⟩ :=
  ⟨((C4_MoveCursor_compare (fun _ _ => S_OK) ⟨3, 4⟩ ⟨⟨⟨3, 4⟩, []⟩, []⟩).1 ⟨rfl, rfl⟩).1,
   ((C4_MoveCursor_compare (fun _ _ => S_OK) ⟨5, 4⟩ ⟨⟨⟨3, 4⟩, []⟩, []⟩).2
      (Or.inl (by decide))).2.2.2.2 (by decide)⟩

/-- C1: if, during `_MoveCursor` to a target, the primitive `_CursorPosition` is
invoked and returns a failure, then `_MoveCursor` returns that same value, the
stored position is what it was before, and a `_MoveCursor` to the same target
made right after invokes `_CursorPosition` again (once, with the target). -/
theorem C1_MoveCursor_failure (prim : Primitives) (c : COORD) (e : WinTelnetEngine)
    (hr : HRESULT)
    (hcall : callsSince e (e._MoveCursor prim c).2 = [(Call._CursorPosition c, hr)])
    (hfail : FAILED hr = true) :
    (e._MoveCursor prim c).1 = hr ∧
    (e._MoveCursor prim c).2._lastText = e._lastText ∧
    (e._MoveCursor prim c).2._colorTable = e._colorTable ∧
    callsSince (e._MoveCursor prim c).2
        ((e._MoveCursor prim c).2._MoveCursor prim c).2 =
      [(Call._CursorPosition c,
        prim (e._MoveCursor prim c).2.log (Call._CursorPosition c))] := by
  by_cases h : c.X ≠ e._lastText.X ∨ c.Y ≠ e._lastText.Y
  · rw [WinTelnetEngine.MoveCursor_diff prim c e h] at hcall ⊢
    simp only [callsSince, List.drop_left] at hcall
    have hhr : prim e.log (Call._CursorPosition c) = hr := by
      simpa using hcall
    have hs : SUCCEEDED hr = false := by
      rw [FAILED_eq_not_SUCCEEDED] at hfail
      simpa using hfail
    simp only [hhr, hs]
    refine ⟨trivial, ?_, trivial, ?_⟩
    · simp
    · apply callsSince_of_log
      rw [WinTelnetEngine.MoveCursor_diff prim c _ (by simpa using h)]
  · have h2 : c.X = e._lastText.X ∧ c.Y = e._lastText.Y := by
      constructor
      · by_contra hx
        exact h (Or.inl hx)
      · by_contra hy
        exact h (Or.inr hy)
    rw [WinTelnetEngine.MoveCursor_same prim c e h2] at hcall
    simp [callsSince] at hcall

/-- C1 at a concrete input: from (0, 0) a move to (1, 1) whose emission fails with
`E_FAIL` returns `E_FAIL` and keeps (0, 0). -/
theorem C1_MoveCursor_failure_witness :
    ((⟨⟨⟨0, 0⟩, []⟩, []⟩ : WinTelnetEngine)._MoveCursor (fun _ _ => E_FAIL) ⟨1, 1⟩).1 = E_FAIL ∧
    ((⟨⟨⟨0, 0⟩, []⟩, []⟩ : WinTelnetEngine)._MoveCursor (fun _ _ => E_FAIL) ⟨1, 1⟩).2._lastText
      = ⟨0, 0⟩ :=
  have h := C1_MoveCursor_failure (fun _ _ => E_FAIL) ⟨1, 1⟩ ⟨⟨⟨0, 0⟩, []⟩, []⟩ E_FAIL
    (by decide) (by decide)
  ⟨h.1, h.2.1⟩

/-- C2, as stated, fails: when the stored position already is the target (3, 4),
two moves to (3, 4) in a row invoke `_CursorPosition` zero times; and when the
emission fails (`E_FAIL` both times), two moves from (0, 0) to (1, 1) invoke it
twice. -/
theorem C2_MoveCursor_twice_counterexample :
    countCursorPosition
      (callsSince (⟨⟨⟨3, 4⟩, []⟩, []⟩ : WinTelnetEngine)
        (((⟨⟨⟨3, 4⟩, []⟩, []⟩ : WinTelnetEngine)._MoveCursor
            (fun _ _ => S_OK) ⟨3, 4⟩).2._MoveCursor (fun _ _ => S_OK) ⟨3, 4⟩).2) = 0 ∧
    countCursorPosition
      (callsSince (⟨⟨⟨0, 0⟩, []⟩, []⟩ : WinTelnetEngine)
        (((⟨⟨⟨0, 0⟩, []⟩, []⟩ : WinTelnetEngine)._MoveCursor
            (fun _ _ => E_FAIL) ⟨1, 1⟩).2._MoveCursor (fun _ _ => E_FAIL) ⟨1, 1⟩).2) = 2 := by
  decide

/-- C2, amended: from a state whose stored position differs from the target, and
when the emission of the first call succeeds, two `_MoveCursor` calls in a row to
the same target invoke `_CursorPosition` exactly once in total, the second call
being a no-op that returns `S_OK`; from a state whose stored position is the
target, the two calls invoke it zero times. -/
theorem C2_MoveCursor_twice (prim : Primitives) (c : COORD) (e : WinTelnetEngine) :
    ((c.X ≠ e._lastText.X ∨ c.Y ≠ e._lastText.Y) →
      SUCCEEDED (prim e.log (Call._CursorPosition c)) = true →
        callsSince e ((e._MoveCursor prim c).2._MoveCursor prim c).2 =
          [(Call._CursorPosition c, prim e.log (Call._CursorPosition c))] ∧
        countCursorPosition
          (callsSince e ((e._MoveCursor prim c).2._MoveCursor prim c).2) = 1 ∧
        (e._MoveCursor prim c).2._MoveCursor prim c = (S_OK, (e._MoveCursor prim c).2)) ∧
    ((c.X = e._lastText.X ∧ c.Y = e._lastText.Y) →
      countCursorPosition
        (callsSince e ((e._MoveCursor prim c).2._MoveCursor prim c).2) = 0) := by
  constructor
  · intro h hs
    have h2 : (e._MoveCursor prim c).2._MoveCursor prim c = (S_OK, (e._MoveCursor prim c).2) := by
      apply WinTelnetEngine.MoveCursor_same
      rw [WinTelnetEngine.MoveCursor_diff prim c e h]
      simp [hs]
    rw [h2, WinTelnetEngine.MoveCursor_diff prim c e h]
    simp [callsSince, countCursorPosition]
  · intro h
    rw [WinTelnetEngine.MoveCursor_same prim c e h, WinTelnetEngine.MoveCursor_same prim c e h]
    simp [callsSince, countCursorPosition]

/-- C2 amended, at concrete inputs: from (0, 0), two successful moves to (1, 1)
emit once; from (3, 4), two moves to (3, 4) emit nothing. -/
theorem C2_MoveCursor_twice_witness :
    countCursorPosition
      (callsSince (⟨⟨⟨0, 0⟩, []⟩, []⟩ : WinTelnetEngine)
        (((⟨⟨⟨0, 0⟩, []⟩, []⟩ : WinTelnetEngine)._MoveCursor
            (fun _ _ => S_OK) ⟨1, 1⟩).2._MoveCursor (fun _ _ => S_OK) ⟨1, 1⟩).2) = 1 ∧
    countCursorPosition
      (callsSince (⟨⟨⟨3, 4⟩, []⟩, []⟩ : WinTelnetEngine)
        (((⟨⟨⟨3, 4⟩, []⟩, []⟩ : WinTelnetEngine)._MoveCursor
            (fun _ _ => E_FAIL) ⟨3, 4⟩).2._MoveCursor (fun _ _ => E_FAIL) ⟨3, 4⟩).2) = 0 :=
  ⟨((C2_MoveCursor_twice (fun _ _ => S_OK) ⟨1, 1⟩ ⟨⟨⟨0, 0⟩, []⟩, []⟩).1
      (Or.inl (by decide)) (by decide)).2.1,
   (C2_MoveCursor_twice (fun _ _ => E_FAIL) ⟨3, 4⟩ ⟨⟨⟨3, 4⟩, []⟩, []⟩).2 ⟨rfl, rfl⟩⟩

/-- C3, as stated, fails: whatever state the constructor produces, there is a
target (the position the base constructor stored) for which the first
`_MoveCursor` invokes no primitive; so no initial value makes every first move
emit.  For instance, when the base constructor stores (0, 0), the first move to
(0, 0) returns `S_OK` with an empty record of calls. -/
theorem C3_first_move_counterexample :
    (¬ ∃ e0 : WinTelnetEngine, ∀ (prim : Primitives) (c : COORD),
        countCursorPosition (callsSince e0 (e0._MoveCursor prim c).2) ≠ 0) ∧
    (∀ e0 : WinTelnetEngine,
      WinTelnetEngine.ctor (fun (_ _ _ : Unit) => Except.ok ⟨⟨0, 0⟩, []⟩) () () () [] =
        Except.ok e0 →
      e0._MoveCursor (fun _ _ => S_OK) ⟨0, 0⟩ = (S_OK, e0) ∧
      (e0._MoveCursor (fun _ _ => S_OK) ⟨0, 0⟩).2.log = []) := by
  constructor
  · rintro ⟨e0, h⟩
    apply h (fun _ _ => S_OK) e0._lastText
    rw [WinTelnetEngine.MoveCursor_same _ _ e0 ⟨rfl, rfl⟩]
    simp [callsSince, countCursorPosition]
  · intro e0 h
    simp only [WinTelnetEngine.ctor, Except.ok.injEq] at h
    subst h
    exact ⟨rfl, rfl⟩

/-- C3, amended: starting from the state the constructor produces, whose stored
position is the one the base constructor chose, the first `_MoveCursor` to any
target other than that position invokes `_CursorPosition` exactly once, with the
target as argument. -/
theorem C3_first_move {Pipe Provider Viewport : Type}
    (VtEngine_ctor : Pipe → Provider → Viewport → Except HRESULT VtEngine)
    (hPipe : Pipe) (colorProvider : Provider) (initialViewport : Viewport)
    (colorTable : List COLORREF) (e0 : WinTelnetEngine)
    (hctor : WinTelnetEngine.ctor VtEngine_ctor hPipe colorProvider initialViewport colorTable
      = Except.ok e0)
    (prim : Primitives) (c : COORD) (hc : c ≠ e0._lastText) :
    VtEngine_ctor hPipe colorProvider initialViewport = Except.ok e0.toVtEngine ∧
    callsSince e0 (e0._MoveCursor prim c).2 =
      [(Call._CursorPosition c, prim e0.log (Call._CursorPosition c))] ∧
    countCursorPosition (callsSince e0 (e0._MoveCursor prim c).2) = 1 := by
  have hd : c.X ≠ e0._lastText.X ∨ c.Y ≠ e0._lastText.Y := (COORD.ne_iff c e0._lastText).mpr hc
  rw [WinTelnetEngine.MoveCursor_diff prim c e0 hd]
  refine ⟨?_, ?_, ?_⟩
  · unfold WinTelnetEngine.ctor at hctor
    split at hctor
    · exact absurd hctor (by simp)
    · rename_i vt hvt
      simp only [Except.ok.injEq] at hctor
      rw [hvt, ← hctor]
  · simp [callsSince]
  · simp [callsSince, countCursorPosition]

/-- C3 amended, at a concrete input: the base constructor stores (0, 0) and the
first move goes to (0, 1). -/
theorem C3_first_move_witness :
    countCursorPosition
      (callsSince (⟨⟨⟨0, 0⟩, []⟩, []⟩ : WinTelnetEngine)
        ((⟨⟨⟨0, 0⟩, []⟩, []⟩ : WinTelnetEngine)._MoveCursor (fun _ _ => S_OK) ⟨0, 1⟩).2) = 1 :=
  (C3_first_move (fun (_ _ _ : Unit) => Except.ok ⟨⟨0, 0⟩, []⟩) () () () []
    ⟨⟨⟨0, 0⟩, []⟩, []⟩ rfl (fun _ _ => S_OK) ⟨0, 1⟩ (by decide)).2.2

/-! ## Claims on the other operations -/

/-- C5: for every text (the empty one included), `WriteTerminalW` invokes
`_WriteTerminalAscii` first; if that result is not a failure it then invokes
`_Flush` exactly once and returns the result of `_Flush`; if it is a failure,
`WriteTerminalW` returns it and `_Flush` is not invoked.  In both cases nothing
else is invoked and the rest of the state is as before. -/
theorem C5_WriteTerminalW_flush (prim : Primitives) (wstr : wstring_view)
    (e : WinTelnetEngine) :
    (SUCCEEDED (prim e.log (Call._WriteTerminalAscii wstr)) = true →
      e.WriteTerminalW prim wstr =
        (prim (e.log ++ [(Call._WriteTerminalAscii wstr,
                prim e.log (Call._WriteTerminalAscii wstr))]) Call._Flush,
          { e with log := e.log ++
              [(Call._WriteTerminalAscii wstr, prim e.log (Call._WriteTerminalAscii wstr)),
               (Call._Flush,
                prim (e.log ++ [(Call._WriteTerminalAscii wstr,
                  prim e.log (Call._WriteTerminalAscii wstr))]) Call._Flush)] }) ∧
      countFlush (callsSince e (e.WriteTerminalW prim wstr).2) = 1) ∧
    (FAILED (prim e.log (Call._WriteTerminalAscii wstr)) = true →
      e.WriteTerminalW prim wstr =
        (prim e.log (Call._WriteTerminalAscii wstr),
          { e with log := e.log ++
              [(Call._WriteTerminalAscii wstr, prim e.log (Call._WriteTerminalAscii wstr))] }) ∧
      countFlush (callsSince e (e.WriteTerminalW prim wstr).2) = 0) := by
  constructor
  · intro hs
    have hf : FAILED (prim e.log (Call._WriteTerminalAscii wstr)) = false := by
      rw [FAILED_eq_not_SUCCEEDED, hs]
      rfl
    have heq : e.WriteTerminalW prim wstr =
        (prim (e.log ++ [(Call._WriteTerminalAscii wstr,
                prim e.log (Call._WriteTerminalAscii wstr))]) Call._Flush,
          { e with log := e.log ++
              [(Call._WriteTerminalAscii wstr, prim e.log (Call._WriteTerminalAscii wstr)),
               (Call._Flush,
                prim (e.log ++ [(Call._WriteTerminalAscii wstr,
                  prim e.log (Call._WriteTerminalAscii wstr))]) Call._Flush)] }) := by
      simp [WinTelnetEngine.WriteTerminalW, WinTelnetEngine._WriteTerminalAscii,
        WinTelnetEngine._Flush, WinTelnetEngine.invoke, hf]
    rw [heq]
    exact ⟨rfl, by simp [callsSince, countFlush]⟩
  · intro hf
    have heq : e.WriteTerminalW prim wstr =
        (prim e.log (Call._WriteTerminalAscii wstr),
          { e with log := e.log ++
              [(Call._WriteTerminalAscii wstr,
                prim e.log (Call._WriteTerminalAscii wstr))] }) := by
      simp [WinTelnetEngine.WriteTerminalW, WinTelnetEngine._WriteTerminalAscii,
        WinTelnetEngine.invoke, hf]
    rw [heq]
    exact ⟨rfl, by simp [callsSince, countFlush]⟩

/-- C5 at concrete inputs, with the empty text: a write that succeeds is followed
by one flush, whose result `S_FALSE` is returned; a write that fails with `E_FAIL`
returns `E_FAIL` without any flush. -/
theorem C5_WriteTerminalW_flush_witness :
    ((⟨⟨⟨0, 0⟩, []⟩, []⟩ : WinTelnetEngine).WriteTerminalW
        (fun _ c => if c = Call._Flush then S_FALSE else S_OK) []).1 = S_FALSE ∧
    countFlush (callsSince (⟨⟨⟨0, 0⟩, []⟩, []⟩ : WinTelnetEngine)
      ((⟨⟨⟨0, 0⟩, []⟩, []⟩ : WinTelnetEngine).WriteTerminalW (fun _ _ => E_FAIL) []).2) = 0 :=
  ⟨congrArg Prod.fst
      ((C5_WriteTerminalW_flush (fun _ c => if c = Call._Flush then S_FALSE else S_OK) []
        ⟨⟨⟨0, 0⟩, []⟩, []⟩).1 (by decide)).1,
   ((C5_WriteTerminalW_flush (fun _ _ => E_FAIL) [] ⟨⟨⟨0, 0⟩, []⟩, []⟩).2 (by decide)).2⟩

/-- The flag test against a single bit is the test of that bit. -/
theorem WI_IsFlagSet_two_pow (val k : Nat) : WI_IsFlagSet val (2 ^ k) = val.testBit k := by
  unfold WI_IsFlagSet
  rw [Nat.and_two_pow]
  cases val.testBit k <;> simp

/-- C6: with `Bold` a single bit (bit `k`), `UpdateDrawingBrushes` invokes
`_16ColorUpdateDrawingBrushes` exactly once, with the foreground, the background,
the value of the `Bold` bit of the extended attributes and the stored colour
table, and returns its result unchanged; hence two calls that agree on
foreground, background and the `Bold` bit, on adapters with the same colour
table, pass identical arguments to the primitive, whatever the other attribute
bits, the legacy attribute and the default-brush flag are. -/
theorem C6_UpdateDrawingBrushes_bold_only (k : Nat) (prim : Primitives)
    (fg bg : COLORREF) (legacy : WORD) (ext : ExtendedAttributes) (isDefault : Bool)
    (e : WinTelnetEngine) :
    e.UpdateDrawingBrushes (2 ^ k) prim fg bg legacy ext isDefault =
      (prim e.log (Call._16ColorUpdateDrawingBrushes fg bg (ext.testBit k) e._colorTable),
        { e with log := e.log ++
            [(Call._16ColorUpdateDrawingBrushes fg bg (ext.testBit k) e._colorTable,
              prim e.log
                (Call._16ColorUpdateDrawingBrushes fg bg (ext.testBit k) e._colorTable))] }) ∧
    (∀ (prim2 : Primitives) (legacy2 : WORD) (ext2 : ExtendedAttributes) (isDefault2 : Bool)
        (e2 : WinTelnetEngine),
      e2._colorTable = e._colorTable → ext2.testBit k = ext.testBit k →
        (callsSince e2 (e2.UpdateDrawingBrushes (2 ^ k) prim2 fg bg legacy2 ext2 isDefault2).2).map
            Prod.fst =
          (callsSince e (e.UpdateDrawingBrushes (2 ^ k) prim fg bg legacy ext isDefault).2).map
            Prod.fst) := by
  have key : ∀ (p : Primitives) (l : WORD) (x : ExtendedAttributes) (d : Bool)
      (s : WinTelnetEngine),
      s.UpdateDrawingBrushes (2 ^ k) p fg bg l x d =
        (p s.log (Call._16ColorUpdateDrawingBrushes fg bg (x.testBit k) s._colorTable),
          { s with log := s.log ++
              [(Call._16ColorUpdateDrawingBrushes fg bg (x.testBit k) s._colorTable,
                p s.log
                  (Call._16ColorUpdateDrawingBrushes fg bg (x.testBit k) s._colorTable))] }) := by
    intro p l x d s
    simp [WinTelnetEngine.UpdateDrawingBrushes, WinTelnetEngine._16ColorUpdateDrawingBrushes,
      WinTelnetEngine.invoke, WI_IsFlagSet_two_pow]
  refine ⟨key prim legacy ext isDefault e, ?_⟩
  intro prim2 legacy2 ext2 isDefault2 e2 hct hbit
  rw [key prim legacy ext isDefault e, key prim2 legacy2 ext2 isDefault2 e2]
  simp [callsSince, hct, hbit]

/-- C6 at a concrete input, with `Bold` the bit 0: attributes 0x23 (bold, italic,
underlined) with legacy attribute 7 and attributes 0x01 (bold alone) with legacy
attribute 0 lead to the same call of the primitive. -/
theorem C6_UpdateDrawingBrushes_bold_only_witness :
    (callsSince (⟨⟨⟨0, 0⟩, []⟩, [0, 128]⟩ : WinTelnetEngine)
        ((⟨⟨⟨0, 0⟩, []⟩, [0, 128]⟩ : WinTelnetEngine).UpdateDrawingBrushes (2 ^ 0)
          (fun _ _ => S_OK) 255 0 7 0x23 true).2).map Prod.fst =
      (callsSince (⟨⟨⟨0, 0⟩, []⟩, [0, 128]⟩ : WinTelnetEngine)
        ((⟨⟨⟨0, 0⟩, []⟩, [0, 128]⟩ : WinTelnetEngine).UpdateDrawingBrushes (2 ^ 0)
          (fun _ _ => S_OK) 255 0 0 0x01 false).2).map Prod.fst :=
  (C6_UpdateDrawingBrushes_bold_only 0 (fun _ _ => S_OK) 255 0 0 0x01 false
    ⟨⟨⟨0, 0⟩, []⟩, [0, 128]⟩).2 (fun _ _ => S_OK) 7 0x23 true ⟨⟨⟨0, 0⟩, []⟩, [0, 128]⟩
    rfl (by decide)

/-- C7: for every delta (null, zero or not), `InvalidateScroll` invokes
`InvalidateAll` exactly once and nothing else, returns its result, and does the
same for any other delta. -/
theorem C7_InvalidateScroll_all (prim : Primitives) (pcoordDelta : Option COORD)
    (e : WinTelnetEngine) :
    e.InvalidateScroll prim pcoordDelta =
      (prim e.log Call.InvalidateAll,
        { e with log := e.log ++ [(Call.InvalidateAll, prim e.log Call.InvalidateAll)] }) ∧
    callsSince e (e.InvalidateScroll prim pcoordDelta).2 =
      [(Call.InvalidateAll, prim e.log Call.InvalidateAll)] ∧
    (∀ other : Option COORD,
      e.InvalidateScroll prim other = e.InvalidateScroll prim pcoordDelta) := by
  refine ⟨rfl, ?_, fun _ => rfl⟩
  simp [WinTelnetEngine.InvalidateScroll, WinTelnetEngine.InvalidateAll,
    WinTelnetEngine.invoke, callsSince]

/-- C8: from every state, `ScrollFrame` returns the success `S_OK`, invokes no
primitive and leaves the whole state, the stored cursor position included, as it
was. -/
theorem C8_ScrollFrame_noop (e : WinTelnetEngine) :
    e.ScrollFrame = (S_OK, e) ∧ SUCCEEDED e.ScrollFrame.1 = true ∧
    callsSince e e.ScrollFrame.2 = [] ∧ e.ScrollFrame.2._lastText = e._lastText := by
  refine ⟨rfl, ?_, ?_, rfl⟩
  · simp [WinTelnetEngine.ScrollFrame, SUCCEEDED, S_OK]
  · simp [WinTelnetEngine.ScrollFrame, callsSince]

/-! ## Construction -/

/-- C9, as stated, fails: with a base constructor that succeeds, construction with
an empty colour table (0 values, not 16) succeeds and stores the empty table; so
does construction with 17 values. -/
theorem C9_ctor_counterexample :
    ([] : List COLORREF).length ≠ 16 ∧
    WinTelnetEngine.ctor (fun (_ _ _ : Unit) => Except.ok ⟨⟨0, 0⟩, []⟩) () () () [] =
      Except.ok ⟨⟨⟨0, 0⟩, []⟩, []⟩ ∧
    (List.replicate 17 (0 : COLORREF)).length ≠ 16 ∧
    WinTelnetEngine.ctor (fun (_ _ _ : Unit) => Except.ok ⟨⟨0, 0⟩, []⟩) () () ()
        (List.replicate 17 0) =
      Except.ok ⟨⟨⟨0, 0⟩, []⟩, List.replicate 17 0⟩ := by
  refine ⟨by decide, rfl, by decide, rfl⟩

/-- C9, amended: construction of the adapter does not look at the colour table.
It succeeds exactly when the construction of the base engine succeeds (and fails
with the same error otherwise), whatever the number of colour values supplied,
and on success the adapter holds the supplied table unchanged. -/
theorem C9_ctor_ignores_table {Pipe Provider Viewport : Type}
    (VtEngine_ctor : Pipe → Provider → Viewport → Except HRESULT VtEngine)
    (hPipe : Pipe) (colorProvider : Provider) (initialViewport : Viewport)
    (colorTable : List COLORREF) :
    WinTelnetEngine.ctor VtEngine_ctor hPipe colorProvider initialViewport colorTable =
      (VtEngine_ctor hPipe colorProvider initialViewport).map
        (fun vt => { toVtEngine := vt, _colorTable := colorTable }) ∧
    (WinTelnetEngine.ctor VtEngine_ctor hPipe colorProvider initialViewport colorTable).isOk =
      (VtEngine_ctor hPipe colorProvider initialViewport).isOk ∧
    (∀ other : List COLORREF,
      (WinTelnetEngine.ctor VtEngine_ctor hPipe colorProvider initialViewport other).isOk =
      (WinTelnetEngine.ctor VtEngine_ctor hPipe colorProvider initialViewport colorTable).isOk) := by
  unfold WinTelnetEngine.ctor
  cases VtEngine_ctor hPipe colorProvider initialViewport <;>
    simp [Except.map, Except.isOk, Except.toBool]

/-! ## The stored cursor position over sequences of operations -/

/-- The most recent successful emission of a record made of two parts. -/
theorem lastTransmitted_append (init : COORD) (a b : List (Call × HRESULT)) :
    lastTransmitted init (a ++ b) = lastTransmitted (lastTransmitted init a) b := by
  induction a generalizing init with
  | nil => rfl
  | cons x rest ih =>
    obtain ⟨call, hr⟩ := x
    cases call <;> simp [lastTransmitted, ih]

/-- One operation extends the record of calls, and the stored position after it is
the most recent successful emission of the added calls, or the old position. -/
theorem WinTelnetEngine.step_record (Bold : ExtendedAttributes) (prim : Primitives)
    (op : Op) (s : WinTelnetEngine) :
    ∃ d : List (Call × HRESULT),
      (s.step Bold prim op).2.log = s.log ++ d ∧
      (s.step Bold prim op).2._lastText = lastTransmitted s._lastText d := by
  cases op with
  | UpdateDrawingBrushes fg bg legacy ext isDefault =>
    exact ⟨[(Call._16ColorUpdateDrawingBrushes fg bg (WI_IsFlagSet ext Bold) s._colorTable,
      prim s.log (Call._16ColorUpdateDrawingBrushes fg bg (WI_IsFlagSet ext Bold) s._colorTable))],
      rfl, rfl⟩
  | _MoveCursor coord =>
    by_cases h : coord.X ≠ s._lastText.X ∨ coord.Y ≠ s._lastText.Y
    · refine ⟨[(Call._CursorPosition coord, prim s.log (Call._CursorPosition coord))], ?_, ?_⟩
      · simp only [WinTelnetEngine.step]
        rw [WinTelnetEngine.MoveCursor_diff prim coord s h]
      · simp only [WinTelnetEngine.step]
        rw [WinTelnetEngine.MoveCursor_diff prim coord s h]
        simp [lastTransmitted]
    · have h2 : coord.X = s._lastText.X ∧ coord.Y = s._lastText.Y := by
        constructor
        · by_contra hx
          exact h (Or.inl hx)
        · by_contra hy
          exact h (Or.inr hy)
      refine ⟨[], ?_, ?_⟩
      · simp only [WinTelnetEngine.step]
        rw [WinTelnetEngine.MoveCursor_same prim coord s h2]
        simp
      · simp only [WinTelnetEngine.step]
        rw [WinTelnetEngine.MoveCursor_same prim coord s h2]
        simp [lastTransmitted]
  | ScrollFrame =>
    exact ⟨[], by simp [WinTelnetEngine.step, WinTelnetEngine.ScrollFrame], rfl⟩
  | InvalidateScroll pcoordDelta =>
    exact ⟨[(Call.InvalidateAll, prim s.log Call.InvalidateAll)], rfl, rfl⟩
  | WriteTerminalW wstr =>
    by_cases hf : FAILED (prim s.log (Call._WriteTerminalAscii wstr)) = true
    · refine ⟨[(Call._WriteTerminalAscii wstr, prim s.log (Call._WriteTerminalAscii wstr))],
        ?_, ?_⟩ <;>
      simp [WinTelnetEngine.step, WinTelnetEngine.WriteTerminalW,
        WinTelnetEngine._WriteTerminalAscii, WinTelnetEngine.invoke, hf, lastTransmitted]
    · refine ⟨[(Call._WriteTerminalAscii wstr, prim s.log (Call._WriteTerminalAscii wstr)),
          (Call._Flush,
            prim (s.log ++ [(Call._WriteTerminalAscii wstr,
              prim s.log (Call._WriteTerminalAscii wstr))]) Call._Flush)], ?_, ?_⟩ <;>
      simp [WinTelnetEngine.step, WinTelnetEngine.WriteTerminalW,
        WinTelnetEngine._WriteTerminalAscii, WinTelnetEngine._Flush,
        WinTelnetEngine.invoke, hf, lastTransmitted]

/-- A sequence of operations extends the record of calls, and the stored position
after it is the most recent successful emission among the added calls, or the
position stored before the sequence. -/
theorem WinTelnetEngine.run_record (Bold : ExtendedAttributes) (prim : Primitives)
    (ops : List Op) (e : WinTelnetEngine) :
    ∃ d : List (Call × HRESULT),
      (e.run Bold prim ops).log = e.log ++ d ∧
      (e.run Bold prim ops)._lastText = lastTransmitted e._lastText d := by
  induction ops generalizing e with
  | nil => exact ⟨[], by simp [WinTelnetEngine.run], rfl⟩
  | cons op rest ih =>
    obtain ⟨d1, hlog1, hpos1⟩ := WinTelnetEngine.step_record Bold prim op e
    obtain ⟨d2, hlog2, hpos2⟩ := ih (e.step Bold prim op).2
    refine ⟨d1 ++ d2, ?_, ?_⟩
    · simp only [WinTelnetEngine.run]
      rw [hlog2, hlog1, List.append_assoc]
    · simp only [WinTelnetEngine.run]
      rw [hpos2, hpos1, lastTransmitted_append]

/-- C10: over every finite sequence of operations, with any outcomes of the
primitives, the stored cursor position after the sequence is the coordinate of
the most recent successful `_CursorPosition` emission made during it, or the
position stored at the start when there was none.  One operation changes the
stored position only when it is a `_MoveCursor` whose emission was made and
succeeded, and then to its target; `UpdateDrawingBrushes`, `ScrollFrame`,
`InvalidateScroll` and `WriteTerminalW` leave it as it was. -/
theorem C10_lastText_invariant (Bold : ExtendedAttributes) (prim : Primitives)
    (ops : List Op) (e : WinTelnetEngine) :
    (e.run Bold prim ops)._lastText =
      lastTransmitted e._lastText (callsSince e (e.run Bold prim ops)) ∧
    (∀ (op : Op) (s : WinTelnetEngine),
      (s.step Bold prim op).2._lastText = s._lastText ∨
      ∃ (c : COORD) (hr : HRESULT), op = Op._MoveCursor c ∧ SUCCEEDED hr = true ∧
        callsSince s (s.step Bold prim op).2 = [(Call._CursorPosition c, hr)] ∧
        (s.step Bold prim op).2._lastText = c) ∧
    (∀ (s : WinTelnetEngine) (fg bg : COLORREF) (legacy : WORD) (ext : ExtendedAttributes)
        (isDefault : Bool) (pcoordDelta : Option COORD) (wstr : wstring_view),
      (s.UpdateDrawingBrushes Bold prim fg bg legacy ext isDefault).2._lastText = s._lastText ∧
      s.ScrollFrame.2._lastText = s._lastText ∧
      (s.InvalidateScroll prim pcoordDelta).2._lastText = s._lastText ∧
      (s.WriteTerminalW prim wstr).2._lastText = s._lastText) := by
  refine ⟨?_, ?_, ?_⟩
  · obtain ⟨d, hlog, hpos⟩ := WinTelnetEngine.run_record Bold prim ops e
    rw [callsSince_of_log e _ d hlog, hpos]
  · intro op s
    cases op with
    | UpdateDrawingBrushes fg bg legacy ext isDefault => exact Or.inl rfl
    | _MoveCursor coord =>
      by_cases h : coord.X ≠ s._lastText.X ∨ coord.Y ≠ s._lastText.Y
      · by_cases hs : SUCCEEDED (prim s.log (Call._CursorPosition coord)) = true
        · right
          refine ⟨coord, prim s.log (Call._CursorPosition coord), rfl, hs, ?_, ?_⟩
          · simp only [WinTelnetEngine.step]
            rw [WinTelnetEngine.MoveCursor_diff prim coord s h]
            simp [callsSince]
          · simp only [WinTelnetEngine.step]
            rw [WinTelnetEngine.MoveCursor_diff prim coord s h]
            simp [hs]
        · left
          simp only [WinTelnetEngine.step]
          rw [WinTelnetEngine.MoveCursor_diff prim coord s h]
          simp [hs]
      · left
        have h2 : coord.X = s._lastText.X ∧ coord.Y = s._lastText.Y := by
          constructor
          · by_contra hx
            exact h (Or.inl hx)
          · by_contra hy
            exact h (Or.inr hy)
        simp only [WinTelnetEngine.step]
        rw [WinTelnetEngine.MoveCursor_same prim coord s h2]
    | ScrollFrame => exact Or.inl rfl
    | InvalidateScroll pcoordDelta => exact Or.inl rfl
    | WriteTerminalW wstr =>
      left
      simp only [WinTelnetEngine.step, WinTelnetEngine.WriteTerminalW]
      split <;> rfl
  · intro s fg bg legacy ext isDefault pcoordDelta wstr
    refine ⟨rfl, rfl, rfl, ?_⟩
    simp only [WinTelnetEngine.WriteTerminalW]
    split <;> rfl

end WinTelnet
